import Mathlib

/-!
# Verification of the PersonaBench turn-based game engine

Shallow embedding of the turn-based game core of the PersonaBench
repository (`bench/games/poker/cards.py`, `bench/games/poker/engine.py`,
`bench/games/blackjack/engine.py`, `bench/games/blackjack/utils.py`,
`bench/games/tic_tac_toe/engine.py`, `bench/core/game_master.py`)
together with theorems settling the frozen claims about it.

Modelling conventions:
* Python `float` reward constants and score accumulators are modelled as `ℚ`;
  the claims concern which constant is added where, never float rounding.
* Python raising an exception (popping an empty deck list) is modelled by
  `Option`-valued functions returning `none`.
* Python decks are lists popped from the end; here the deck is stored with
  the top of the deck at the head of the list, so a pop is a head match.
* Python dicts keyed by player id are modelled as total functions from
  `String`, updated pointwise; the games only ever read keys that are
  player ids.
* `random.Random(seed).shuffle` is modelled by an arbitrary seed-indexed
  permutation function passed as a parameter: for a fixed seed it is a
  fixed function, which is exactly the determinism property of the Python
  generator that the engine relies on.
-/

namespace PersonaBench

/-! ## Poker card utilities (`bench/games/poker/cards.py`)

A `Card` is a pair of a rank value and a suit index.  The Python source
stores ranks as strings `"2"…"A"` and immediately maps them through
`RANK_VALUES` (giving `2…14`) inside `hand_rank`; suits are four distinct
symbols, used only for equality tests.  The embedding works directly with
the rank value (`2…14`) and a suit index (`0…3`). -/

/-- A playing card: `(rank value, suit index)`; rank values range over
`2..14` (`14` = ace), suit indices over `0..3`. -/
abbrev Card := ℕ × ℕ

/-- Sort a list of naturals in descending order (Python
`sorted(..., reverse=True)`). -/
def descSort (l : List ℕ) : List ℕ := l.insertionSort (· ≥ ·)

/-- Sort a list of naturals in ascending order (Python `sorted(...)`). -/
def ascSort (l : List ℕ) : List ℕ := l.insertionSort (· ≤ ·)

/-- `legal_moves_for_stage` from `cards.py`: empty at showdown or when the
hand is finished, `call/fold` when facing a bet, else `check/bet/fold`. -/
def legalMovesForStage (stage : String) (awaitingCall : Bool) : List String :=
  if stage = "showdown" ∨ stage = "finished" then []
  else if awaitingCall then ["call", "fold"]
  else ["check", "bet", "fold"]

/-- `hand_rank` from `cards.py`, for a 5-card hand.  The Python function
returns a pair `(category, tiebreak-tuple)` compared with Python's
lexicographic tuple order; here the pair is flattened into the list
`category :: tiebreaks`, and Mathlib's lexicographic order on `List ℕ`
coincides with Python's tuple comparison (element-wise, a strict prefix
being smaller). -/
def handRank (hand : List Card) : List ℕ :=
  let values := descSort (hand.map Prod.fst)
  let suits := hand.map Prod.snd
  let count := fun v => values.count v
  let isFlush := suits.dedup.length = 1
  let uniq := ascSort (hand.map Prod.fst).dedup
  let isWheel := uniq = [2, 3, 4, 5, 14]
  let highest := uniq.foldr max 0
  let lowest := uniq.foldr min 15
  let isStraight := uniq.length = 5 ∧ (highest - lowest = 4 ∨ isWheel)
  if isStraight ∧ isFlush then
    [8, if isWheel then 5 else highest]
  else if uniq.any (fun v => count v = 4) then
    let fourValue := ((uniq.filter (fun v => count v = 4)).headD 0)
    let kicker := (uniq.filter (fun v => count v = 1)).foldr max 0
    [7, fourValue, kicker]
  else if ascSort (uniq.map count) = [2, 3] then
    let threeValue := ((uniq.filter (fun v => count v = 3)).headD 0)
    let pairValue := (uniq.filter (fun v => count v = 2)).foldr max 0
    [6, threeValue, pairValue]
  else if isFlush then
    5 :: values
  else if isStraight then
    [4, if isWheel then 5 else highest]
  else if uniq.any (fun v => count v = 3) then
    let threeValue := ((uniq.filter (fun v => count v = 3)).headD 0)
    let kickers := descSort (uniq.filter (fun v => count v = 1))
    3 :: threeValue :: kickers
  else
    let pairs := descSort (uniq.filter (fun v => count v = 2))
    if pairs.length = 2 then
      let kicker := (uniq.filter (fun v => count v = 1)).foldr max 0
      [2, pairs.headD 0, pairs.tail.headD 0, kicker]
    else if uniq.any (fun v => count v = 2) then
      let kickers := descSort (uniq.filter (fun v => count v = 1))
      1 :: pairs.headD 0 :: kickers
    else
      0 :: values

/-- One step of the running-maximum fold inside `best_hand_rank`:
`if best_rank is None or rank > best_rank: best_rank = rank`. -/
def rankMaxStep (best : Option (List ℕ)) (combo : List Card) : Option (List ℕ) :=
  match best with
  | none => some (handRank combo)
  | some b => if b < handRank combo then some (handRank combo) else some b

/-- `best_hand_rank` from `cards.py`: fold the running maximum of
`hand_rank` over every 5-card combination of the input (Python
`itertools.combinations(cards, 5)`; here `List.sublistsLen 5`, which
enumerates the same 5-card subsets).  `none` models the Python `assert`
firing on fewer than 5 cards. -/
def bestHandRank (cards : List Card) : Option (List ℕ) :=
  (cards.sublistsLen 5).foldl rankMaxStep none

end PersonaBench

namespace PersonaBench

theorem rankMaxStep_isSome (acc : Option (List ℕ)) (c : List Card) :
    (rankMaxStep acc c).isSome := by
  cases acc with
  | none => simp [rankMaxStep]
  | some b => simp only [rankMaxStep]; split <;> simp

theorem handRank_le_rankMaxStep (acc : Option (List ℕ)) (c : List Card) (x : List ℕ)
    (h : rankMaxStep acc c = some x) : handRank c ≤ x := by
  cases acc with
  | none => simp only [rankMaxStep] at h; exact (Option.some_inj.mp h).le
  | some b =>
    simp only [rankMaxStep] at h
    split at h
    · exact (Option.some_inj.mp h).le
    · next hb => exact le_of_not_lt hb |>.trans (Option.some_inj.mp h).le

theorem acc_le_foldl_rankMaxStep :
    ∀ (combos : List (List Card)) (b r : List ℕ),
      combos.foldl rankMaxStep (some b) = some r → b ≤ r := by
  intro combos
  induction combos with
  | nil => intro b r h; exact (Option.some_inj.mp h).le
  | cons c rest ih =>
    intro b r h
    simp only [List.foldl_cons] at h
    by_cases hb : b < handRank c
    · have : rankMaxStep (some b) c = some (handRank c) := by
        simp [rankMaxStep, hb]
      rw [this] at h
      exact (le_of_lt hb).trans (ih _ _ h)
    · have : rankMaxStep (some b) c = some b := by
        simp [rankMaxStep, hb]
      rw [this] at h
      exact ih _ _ h

theorem foldl_rankMaxStep_isSome :
    ∀ (combos : List (List Card)) (b : List ℕ),
      (combos.foldl rankMaxStep (some b)).isSome := by
  intro combos
  induction combos with
  | nil => intro b; rfl
  | cons c rest ih =>
    intro b
    simp only [List.foldl_cons]
    by_cases hb : b < handRank c
    · have : rankMaxStep (some b) c = some (handRank c) := by simp [rankMaxStep, hb]
      rw [this]; exact ih _
    · have : rankMaxStep (some b) c = some b := by simp [rankMaxStep, hb]
      rw [this]; exact ih _

theorem foldl_rankMaxStep_upper_bound :
    ∀ (combos : List (List Card)) (acc : Option (List ℕ)) (r : List ℕ),
      combos.foldl rankMaxStep acc = some r →
      ∀ c ∈ combos, handRank c ≤ r := by
  intro combos
  induction combos with
  | nil => intro acc r _ c hc; cases hc
  | cons c rest ih =>
    intro acc r h c' hc'
    simp only [List.foldl_cons] at h
    obtain ⟨x, hx⟩ := Option.isSome_iff_exists.mp (rankMaxStep_isSome acc c)
    rw [hx] at h
    rcases List.mem_cons.mp hc' with rfl | hmem
    · exact (handRank_le_rankMaxStep acc c' x hx).trans (acc_le_foldl_rankMaxStep rest x r h)
    · exact ih _ r (by rw [← hx] at h; rw [hx] at h; exact h) c' hmem

theorem foldl_rankMaxStep_mem :
    ∀ (combos : List (List Card)) (acc : Option (List ℕ)) (r : List ℕ),
      combos.foldl rankMaxStep acc = some r →
      acc = some r ∨ ∃ c ∈ combos, r = handRank c := by
  intro combos
  induction combos with
  | nil => intro acc r h; exact Or.inl h
  | cons c rest ih =>
    intro acc r h
    simp only [List.foldl_cons] at h
    rcases ih _ r h with hacc | ⟨c', hc', hr⟩
    · cases acc with
      | none =>
        simp only [rankMaxStep] at hacc
        exact Or.inr ⟨c, List.mem_cons_self _ _, (Option.some_inj.mp hacc).symm⟩
      | some b =>
        simp only [rankMaxStep] at hacc
        split at hacc
        · exact Or.inr ⟨c, List.mem_cons_self _ _, (Option.some_inj.mp hacc).symm⟩
        · exact Or.inl (by rw [Option.some_inj.mp hacc])
    · exact Or.inr ⟨c', List.mem_cons_of_mem _ hc', hr⟩

/-- C1: for a 5, 6, or 7 card input, `best_hand_rank` returns the
lexicographic maximum of `hand_rank` over all 5-card subsets of the input;
for a 5-card input it is exactly `hand_rank` of that hand. -/
theorem best_hand_rank_maximizes (cards : List Card)
    (h : cards.length = 5 ∨ cards.length = 6 ∨ cards.length = 7) :
    ∃ r, bestHandRank cards = some r ∧
      (∃ combo ∈ cards.sublistsLen 5, r = handRank combo) ∧
      (∀ combo ∈ cards.sublistsLen 5, handRank combo ≤ r) ∧
      (cards.length = 5 → r = handRank cards) := by
  have h5 : 5 ≤ cards.length := by rcases h with h | h | h <;> omega
  have htake : cards.take 5 ∈ cards.sublistsLen 5 :=
    List.mem_sublistsLen.mpr ⟨List.take_sublist 5 cards, by
      rw [List.length_take]; omega⟩
  obtain ⟨c0, rest, hconv⟩ : ∃ c0 rest, cards.sublistsLen 5 = c0 :: rest := by
    cases hcs : cards.sublistsLen 5 with
    | nil => rw [hcs] at htake; cases htake
    | cons a as => exact ⟨a, as, rfl⟩
  have hsome : (bestHandRank cards).isSome := by
    unfold bestHandRank
    rw [hconv]
    simp only [List.foldl_cons, rankMaxStep]
    exact foldl_rankMaxStep_isSome rest (handRank c0)
  obtain ⟨r, hr⟩ := Option.isSome_iff_exists.mp hsome
  refine ⟨r, hr, ?_, ?_, ?_⟩
  · rcases foldl_rankMaxStep_mem (cards.sublistsLen 5) none r hr with hacc | hm
    · cases hacc
    · obtain ⟨c, hc, hrc⟩ := hm
      exact ⟨c, hc, hrc⟩
  · exact foldl_rankMaxStep_upper_bound (cards.sublistsLen 5) none r hr
  · intro hlen
    have hsingle : cards.sublistsLen 5 = [cards] := by
      conv_lhs => rw [← hlen]
      exact List.sublistsLen_length cards
    unfold bestHandRank at hr
    rw [hsingle] at hr
    simp only [List.foldl_cons, List.foldl_nil, rankMaxStep] at hr
    exact (Option.some_inj.mp hr).symm

/-- Witness for C1 at a concrete 5-card hand. -/
theorem best_hand_rank_maximizes_witness :
    (([(2, 0), (3, 0), (4, 0), (5, 0), (14, 0)] : List Card).length = 5 ∨
      ([(2, 0), (3, 0), (4, 0), (5, 0), (14, 0)] : List Card).length = 6 ∨
      ([(2, 0), (3, 0), (4, 0), (5, 0), (14, 0)] : List Card).length = 7) ∧
    (∃ r, bestHandRank [(2, 0), (3, 0), (4, 0), (5, 0), (14, 0)] = some r ∧
      (∃ combo ∈ ([(2, 0), (3, 0), (4, 0), (5, 0), (14, 0)] : List Card).sublistsLen 5,
        r = handRank combo) ∧
      (∀ combo ∈ ([(2, 0), (3, 0), (4, 0), (5, 0), (14, 0)] : List Card).sublistsLen 5,
        handRank combo ≤ r) ∧
      (([(2, 0), (3, 0), (4, 0), (5, 0), (14, 0)] : List Card).length = 5 →
        r = handRank [(2, 0), (3, 0), (4, 0), (5, 0), (14, 0)])) :=
  ⟨Or.inl rfl, best_hand_rank_maximizes _ (Or.inl rfl)⟩

end PersonaBench

namespace PersonaBench

/-- C3 counterexample: the suited hand 6-7-8-9-T of spades is itself a
category-8 straight flush (not a category-4 straight), and the wheel
straight flush, as ranked by the code, compares strictly LESS than it,
refuting the claimed strict-greater comparison. -/
theorem wheel_not_above_suited_six_to_ten :
    handRank [(6, 0), (7, 0), (8, 0), (9, 0), (10, 0)] = [8, 10] ∧
    ¬ handRank [(6, 0), (7, 0), (8, 0), (9, 0), (10, 0)] <
        handRank [(2, 0), (3, 0), (4, 0), (5, 0), (14, 0)] := by
  constructor
  · decide
  · decide

/-- C3 amended: `hand_rank` of the wheel straight flush A-2-3-4-5 suited is
category 8 with tiebreak high card 5 (not 14); it compares strictly greater
than the MIXED-SUIT 6-7-8-9-T, which is the category-4 straight; the fully
suited 6♠7♠8♠9♠T♠ is itself a category-8 straight flush and compares
strictly greater than the wheel. -/
theorem wheel_straight_flush_ranking :
    handRank [(2, 0), (3, 0), (4, 0), (5, 0), (14, 0)] = [8, 5] ∧
    handRank [(6, 0), (7, 0), (8, 0), (9, 0), (10, 1)] = [4, 10] ∧
    handRank [(6, 0), (7, 0), (8, 0), (9, 0), (10, 1)] <
      handRank [(2, 0), (3, 0), (4, 0), (5, 0), (14, 0)] ∧
    handRank [(6, 0), (7, 0), (8, 0), (9, 0), (10, 0)] = [8, 10] ∧
    handRank [(2, 0), (3, 0), (4, 0), (5, 0), (14, 0)] <
      handRank [(6, 0), (7, 0), (8, 0), (9, 0), (10, 0)] := by
  refine ⟨by decide, by decide, by decide, by decide, by decide⟩

end PersonaBench

namespace PersonaBench

/-! ## Blackjack helpers (`bench/games/blackjack/utils.py`) -/

/-- `CARD_VALUES`: the thirteen blackjack card values of one suit. -/
def CARD_VALUES : List ℕ := [1, 2, 3, 4, 5, 6, 7, 8, 9, 10, 10, 10, 10]

/-- `create_deck`: four repeats of `CARD_VALUES` (Python `CARD_VALUES * 4`). -/
def createDeck : List ℕ := CARD_VALUES ++ CARD_VALUES ++ CARD_VALUES ++ CARD_VALUES

/-- The `while aces > 0 and total + 10 <= 21` loop of `hand_value`,
recursing on the number of remaining aces. -/
def softAceAdjust : ℕ → ℕ → ℕ
  | 0, total => total
  | n + 1, total => if total + 10 ≤ 21 then softAceAdjust n (total + 10) else total

/-- `hand_value`: sum the cards, then upgrade aces from 1 to 11 while that
does not bust the hand. -/
def handValue (cards : List ℕ) : ℕ :=
  softAceAdjust (cards.count 1) cards.sum

/-- `card_label`: `"Ace"` for a 1, otherwise the decimal value. -/
def cardLabel (card : ℕ) : String :=
  if card = 1 then "Ace" else toString card

/-! ## Blackjack engine (`bench/games/blackjack/engine.py`) -/

/-- Pointwise update of a player-keyed dict modelled as a function. -/
def dictSet {α : Type} (f : String → α) (k : String) (v : α) : String → α :=
  fun q => if q = k then v else f q

/-- Python `str.lower()` for the ASCII command strings in play, computed
over the character list (Lean's own `String.toLower` does not reduce
inside the kernel). -/
def strLower (s : String) : String := String.mk (s.data.map Char.toLower)

/-- Python `str.strip()` for the ASCII command strings in play. -/
def strTrim (s : String) : String :=
  String.mk (((s.data.dropWhile Char.isWhitespace).reverse.dropWhile
    Char.isWhitespace).reverse)

/-- `BlackjackPlayerState`. -/
structure BJPlayerState where
  hand : List ℕ := []
  done : Bool := false
  outcome : Option String := none
  stood : Bool := false
deriving Repr, DecidableEq, Inhabited

/-- The five reward-magnitude constructor arguments of `BlackjackGame`,
with their Python default values. -/
structure BJConfig where
  winReward : ℚ := 1
  pushReward : ℚ := 1 / 10
  losePenalty : ℚ := -1
  bustPenalty : ℚ := -3 / 2
  invalidPenalty : ℚ := -2

/-- The default `BlackjackGame` reward configuration. -/
def defaultBJConfig : BJConfig := {}

/-- The mutable round state of `BlackjackGame`. -/
structure BJState where
  players : List String
  scores : String → ℚ
  pstates : String → BJPlayerState
  deck : List ℕ
  dealer : List ℕ
  currentIndex : ℕ
  terminal : Bool
  dealerResolved : Bool

/-- `_ensure_current_index`: move the turn pointer to the first
not-yet-finished player at or cyclically after it; if every player is
finished, reset it to 0. -/
def ensureCurrentIndex (s : BJState) : BJState :=
  if s.terminal then s
  else
    match (List.range s.players.length).find? (fun off =>
        !(s.pstates (s.players.getD ((s.currentIndex + off) % s.players.length) "")).done) with
    | some off => { s with currentIndex := (s.currentIndex + off) % s.players.length }
    | none => { s with currentIndex := 0 }

/-- `current_player` (which first runs `_ensure_current_index`; the Python
method persists that pointer move, but `_ensure_current_index` is
idempotent and re-run by `apply`, so reading it off the adjusted state is
observationally identical). -/
def bjCurrentPlayer (s : BJState) : String :=
  (ensureCurrentIndex s).players.getD (ensureCurrentIndex s).currentIndex ""

/-- `_advance_turn`: step the pointer and re-normalise it. -/
def advanceTurn (s : BJState) : BJState :=
  ensureCurrentIndex { s with currentIndex := (s.currentIndex + 1) % s.players.length }

/-- The dealer's draw loop `while hand_value(dealer) < 17: append(deck.pop())`;
`none` models popping an empty deck. -/
def dealerDraw : List ℕ → List ℕ → Option (List ℕ × List ℕ)
  | [], hand => if handValue hand < 17 then none else some ([], hand)
  | c :: rest, hand =>
    if handValue hand < 17 then dealerDraw rest (hand ++ [c])
    else some (c :: rest, hand)

/-- The body of the per-player loop of `_maybe_resolve_match`: players who
already busted or were invalidated are skipped; otherwise the player is
compared against the dealer total and outcome plus reward delta applied. -/
def resolveOne (cfg : BJConfig) (dealerTotal : ℕ)
    (acc : (String → BJPlayerState) × (String → ℚ)) (p : String) :
    (String → BJPlayerState) × (String → ℚ) :=
  let st := acc.1 p
  if st.outcome = some "bust" ∨ st.outcome = some "invalid" then acc
  else
    let playerTotal := handValue st.hand
    if 21 < dealerTotal ∨ dealerTotal < playerTotal then
      (dictSet acc.1 p { st with outcome := some "win" },
        dictSet acc.2 p (acc.2 p + cfg.winReward))
    else if playerTotal = dealerTotal then
      (dictSet acc.1 p { st with outcome := some "push" },
        dictSet acc.2 p (acc.2 p + cfg.pushReward))
    else
      (dictSet acc.1 p { st with outcome := some "lose" },
        dictSet acc.2 p (acc.2 p + cfg.losePenalty))

/-- The `for player, state in self._player_states.items()` loop of
`_maybe_resolve_match`. -/
def resolvePlayers (cfg : BJConfig) (dealerTotal : ℕ) (players : List String)
    (ps : String → BJPlayerState) (sc : String → ℚ) :
    (String → BJPlayerState) × (String → ℚ) :=
  players.foldl (resolveOne cfg dealerTotal) (ps, sc)

/-- `_maybe_resolve_match`: if some player is still deciding, just advance
the turn; otherwise resolve the dealer once (draw to 17, then compare every
still-live player) and mark the match terminal. -/
def maybeResolveMatch (cfg : BJConfig) (s : BJState) : Option BJState :=
  if s.terminal then some s
  else if s.players.any (fun p => !(s.pstates p).done) then some (advanceTurn s)
  else if s.dealerResolved then some { s with terminal := true }
  else
    match dealerDraw s.deck s.dealer with
    | none => none
    | some (deck', dealer') =>
      let dealerTotal := handValue dealer'
      let resolved := resolvePlayers cfg dealerTotal s.players s.pstates s.scores
      some { s with
        deck := deck', dealer := dealer', pstates := resolved.1, scores := resolved.2,
        dealerResolved := true, terminal := true }

/-- Shared shape of the turn result: reward delta, done flag, and the
scalar diagnostic entries of the Python `info` dict (the `legal_moves`,
`scores` and merged trailing `outcome` entries, which only re-render state,
are not modelled). -/
structure TurnUpdate where
  reward : ℚ
  done : Bool
  info : List (String × String)

/-- `BlackjackGame.apply`.  `none` models a Python exception from popping
an empty deck. -/
def bjApply (cfg : BJConfig) (s : BJState) (playerId command : String) :
    Option (BJState × TurnUpdate) :=
  if s.terminal then
    some (s, ⟨0, true, [("reason", "match_already_finished")]⟩)
  else
    let s := ensureCurrentIndex s
    if playerId ≠ s.players.getD s.currentIndex "" then
      some (s, ⟨cfg.invalidPenalty, false, [("invalid", "true"), ("reason", "out_of_turn")]⟩)
    else
      let st := s.pstates playerId
      if st.done then
        some (s, ⟨0, s.terminal, [("reason", "player_already_finished")]⟩)
      else
        let startingScore := s.scores playerId
        let normalized := strLower (strTrim command)
        if normalized = "hit" then
          match s.deck with
          | [] => none
          | card :: deckRest =>
            let newHand := st.hand ++ [card]
            if 21 < handValue newHand then
              let s1 := { s with
                deck := deckRest,
                pstates := dictSet s.pstates playerId
                  { st with hand := newHand, done := true, outcome := some "bust" },
                scores := dictSet s.scores playerId (s.scores playerId + cfg.bustPenalty) }
              (maybeResolveMatch cfg s1).map (fun s2 =>
                (s2, ⟨s2.scores playerId - startingScore, s2.terminal,
                  [("outcome", "bust"), ("drawn_card", cardLabel card)]⟩))
            else
              let s1 := { s with
                deck := deckRest,
                pstates := dictSet s.pstates playerId { st with hand := newHand } }
              (maybeResolveMatch cfg s1).map (fun s2 =>
                (s2, ⟨s2.scores playerId - startingScore, s2.terminal,
                  [("action", "hit"), ("drawn_card", cardLabel card)]⟩))
        else if normalized = "stand" then
          let s1 := { s with
            pstates := dictSet s.pstates playerId { st with done := true, stood := true } }
          (maybeResolveMatch cfg s1).map (fun s2 =>
            (s2, ⟨s2.scores playerId - startingScore, s2.terminal, [("action", "stand")]⟩))
        else
          let s1 := { s with
            pstates := dictSet s.pstates playerId { st with done := true, outcome := some "invalid" },
            scores := dictSet s.scores playerId (s.scores playerId + cfg.invalidPenalty) }
          (maybeResolveMatch cfg s1).map (fun s2 =>
            (s2, ⟨s2.scores playerId - startingScore, s2.terminal,
              [("invalid", "true"), ("reason", "illegal_command")]⟩))

/-- `BlackjackGame.legal_actions`. -/
def bjLegalActions (s : BJState) (playerId : String) : List String :=
  if s.terminal then []
  else if (s.pstates playerId).done then []
  else ["hit", "stand"]

/-- `BlackjackGame.final_scores` (a copy of the live accumulator dict). -/
def bjFinalScores (s : BJState) : String → ℚ := s.scores

/-- The dealing part of `BlackjackGame.reset`: two cards per player in
seating order (`none` if the deck runs out). -/
def dealPlayers : List String → List ℕ → (String → BJPlayerState) →
    Option ((String → BJPlayerState) × List ℕ)
  | [], deck, acc => some (acc, deck)
  | p :: rest, a :: b :: deck', acc =>
      dealPlayers rest deck' (dictSet acc p { hand := [a, b] })
  | _ :: _, _, _ => none

/-- `BlackjackGame.reset`: re-seed the generator, shuffle a fresh deck,
deal two cards to every player, then two to the dealer.  The `shuffle`
argument is the model of `random.Random(seed).shuffle`. -/
def bjReset (shuffle : List ℕ → List ℕ) (players : List String) : Option BJState :=
  let deck := shuffle createDeck
  match dealPlayers players deck (fun _ => default) with
  | none => none
  | some (ps, deck1) =>
    match deck1 with
    | d1 :: d2 :: deck2 =>
      some { players := players, scores := fun _ => 0, pstates := ps,
             deck := deck2, dealer := [d1, d2], currentIndex := 0,
             terminal := false, dealerResolved := false }
    | _ => none

end PersonaBench

namespace PersonaBench

/-! ## Heads-up poker engine (`bench/games/poker/engine.py`) -/

/-- The reward-magnitude constructor arguments of `HeadsUpPokerGame`, with
their Python default values. -/
structure PokerConfig where
  betAmount : ℚ := 1
  winReward : ℚ := 1
  lossPenalty : ℚ := -1
  splitReward : ℚ := 0
  invalidPenalty : ℚ := -1 / 2
  foldPenalty : ℚ := -1

/-- The default `HeadsUpPokerGame` reward configuration. -/
def defaultPokerConfig : PokerConfig := {}

/-- `PokerPlayerState`. -/
structure PokerPlayerState where
  hand : List Card := []
  folded : Bool := false
deriving Repr, DecidableEq, Inhabited

/-- The mutable round state of `HeadsUpPokerGame`; `p0`/`p1` are the
exactly-two seat identifiers (`players[0]`, `players[1]`). -/
structure PokerState where
  p0 : String
  p1 : String
  scores : String → ℚ
  pstates : String → PokerPlayerState
  deck : List Card
  boardPlan : List Card
  board : List Card
  stage : String
  stageActions : List (String × String)
  awaitingCall : Bool
  aggressor : Option String
  currentPlayer : String
  terminal : Bool
  winner : Option String
  pot : ℚ
  history : List String

/-- `_opponent`: `players[1]` for `players[0]`, else `players[0]`. -/
def pokerOpponent (s : PokerState) (playerId : String) : String :=
  if playerId = s.p0 then s.p1 else s.p0

/-- `_first_actor_for_stage`: big blind (`players[1]`) preflop, the button
(`players[self._button_index]`, index 0) on every later street. -/
def firstActorForStage (s : PokerState) (stage : String) : String :=
  if stage = "preflop" then s.p1 else s.p0

/-- Python dict assignment `d[k] = v` on the small stage-action dict,
modelled as an association list keeping first-insertion order. -/
def dictInsert (l : List (String × String)) (k v : String) : List (String × String) :=
  if l.any (fun kv => kv.1 = k) then
    l.map (fun kv => if kv.1 = k then (k, v) else kv)
  else l ++ [(k, v)]

/-- `HeadsUpPokerGame.legal_actions`. -/
def pokerLegalActions (s : PokerState) (playerId : String) : List String :=
  if s.terminal ∨ (s.pstates playerId).folded then []
  else if playerId ≠ s.currentPlayer then []
  else legalMovesForStage s.stage s.awaitingCall

/-- `_resolve_showdown`: if only one player is still in the hand they win
by default; otherwise compare `best_hand_rank` of each hand plus board,
award win/loss on a strict difference and the split reward on a tie.
`none` models `best_hand_rank`'s assert on fewer than five cards. -/
def resolveShowdown (cfg : PokerConfig) (s : PokerState) : Option PokerState :=
  if s.terminal then some s
  else
    let active := (if (s.pstates s.p0).folded then [] else [s.p0]) ++
      (if (s.pstates s.p1).folded then [] else [s.p1])
    match active with
    | [winner] =>
      some { s with
        scores := dictSet s.scores winner (s.scores winner + cfg.winReward),
        winner := some winner, terminal := true,
        history := s.history ++ ["Showdown skipped: " ++ winner ++ " wins by default."] }
    | _ =>
      match bestHandRank ((s.pstates s.p0).hand ++ s.board),
          bestHandRank ((s.pstates s.p1).hand ++ s.board) with
      | some r0, some r1 =>
        if r1 < r0 then
          some { s with
            scores := dictSet (dictSet s.scores s.p0 (s.scores s.p0 + cfg.winReward)) s.p1
              ((dictSet s.scores s.p0 (s.scores s.p0 + cfg.winReward)) s.p1 + cfg.lossPenalty),
            winner := some s.p0, terminal := true,
            history := s.history ++ ["Showdown: " ++ s.p0 ++ " wins the hand."] }
        else if r0 < r1 then
          some { s with
            scores := dictSet (dictSet s.scores s.p1 (s.scores s.p1 + cfg.winReward)) s.p0
              ((dictSet s.scores s.p1 (s.scores s.p1 + cfg.winReward)) s.p0 + cfg.lossPenalty),
            winner := some s.p1, terminal := true,
            history := s.history ++ ["Showdown: " ++ s.p1 ++ " wins the hand."] }
        else
          some { s with
            scores := dictSet (dictSet s.scores s.p0 (s.scores s.p0 + cfg.splitReward)) s.p1
              ((dictSet s.scores s.p0 (s.scores s.p0 + cfg.splitReward)) s.p1 + cfg.splitReward),
            winner := none, terminal := true,
            history := s.history ++ ["Showdown: split pot."] }
      | _, _ => none

/-- `_advance_stage`: clear the per-stage action dict, reveal the next
board cards from the pre-committed plan, and hand the turn to the street's
first actor; from the river, enter showdown and resolve it. -/
def advanceStage (cfg : PokerConfig) (s : PokerState) : Option PokerState :=
  if s.terminal then some s
  else
    let s1 := { s with stageActions := [] }
    if s1.stage = "preflop" then
      let s2 := { s1 with
        board := s1.boardPlan.take 3, stage := "flop",
        history := s1.history ++ ["Flop revealed."] }
      some { s2 with currentPlayer := firstActorForStage s2 s2.stage }
    else if s1.stage = "flop" then
      let s2 := { s1 with
        board := s1.boardPlan.take 4, stage := "turn",
        history := s1.history ++ ["Turn card revealed."] }
      some { s2 with currentPlayer := firstActorForStage s2 s2.stage }
    else if s1.stage = "turn" then
      let s2 := { s1 with
        board := s1.boardPlan.take 5, stage := "river",
        history := s1.history ++ ["River card revealed."] }
      some { s2 with currentPlayer := firstActorForStage s2 s2.stage }
    else if s1.stage = "river" then
      resolveShowdown cfg { s1 with stage := "showdown" }
    else if s1.stage = "showdown" then
      some s1
    else
      some { s1 with currentPlayer := firstActorForStage s1 s1.stage }

/-- `HeadsUpPokerGame.apply`. -/
def pokerApply (cfg : PokerConfig) (s : PokerState) (playerId command : String) :
    Option (PokerState × TurnUpdate) :=
  if s.terminal then
    some (s, ⟨0, true, [("reason", "hand_already_finished")]⟩)
  else if playerId ≠ s.currentPlayer then
    some (s, ⟨cfg.invalidPenalty, false, [("invalid", "true"), ("reason", "out_of_turn")]⟩)
  else
    let startingScore := s.scores playerId
    let normalized := strLower (strTrim command)
    let legalMoves := pokerLegalActions s playerId
    if ¬ legalMoves.contains normalized then
      let s1 := { s with
        scores := dictSet s.scores playerId (s.scores playerId + cfg.invalidPenalty),
        history := s.history ++ [playerId ++ " submitted an invalid action: " ++ command ++ "."] }
      some (s1, ⟨s1.scores playerId - startingScore, s1.terminal,
        [("invalid", "true"), ("reason", "illegal_command")]⟩)
    else if normalized = "fold" then
      let opponent := pokerOpponent s playerId
      let sc1 := dictSet s.scores playerId (s.scores playerId + cfg.foldPenalty)
      let s1 := { s with
        pstates := dictSet s.pstates playerId { s.pstates playerId with folded := true },
        scores := dictSet sc1 opponent (sc1 opponent + cfg.winReward),
        winner := some opponent, terminal := true,
        history := s.history ++ [playerId ++ " folds. " ++ opponent ++ " wins the pot."] }
      some (s1, ⟨s1.scores playerId - startingScore, s1.terminal, [("action", "fold")]⟩)
    else if normalized = "bet" then
      let s1 := { s with
        pot := s.pot + cfg.betAmount,
        stageActions := dictInsert s.stageActions playerId "bet",
        awaitingCall := true, aggressor := some playerId,
        history := s.history ++ [playerId ++ " bets one unit."],
        currentPlayer := pokerOpponent s playerId }
      some (s1, ⟨s1.scores playerId - startingScore, s1.terminal, [("action", "bet")]⟩)
    else if normalized = "call" then
      let s1 := { s with
        pot := s.pot + cfg.betAmount,
        stageActions := dictInsert s.stageActions playerId "call",
        history := s.history ++ [playerId ++ " calls."],
        awaitingCall := false, aggressor := none }
      (advanceStage cfg s1).map (fun s2 =>
        (s2, ⟨s2.scores playerId - startingScore, s2.terminal, [("action", "call")]⟩))
    else
      let s1 := { s with
        stageActions := dictInsert s.stageActions playerId "check",
        history := s.history ++ [playerId ++ " checks."] }
      if s1.stageActions.length = 2 then
        (advanceStage cfg s1).map (fun s2 =>
          (s2, ⟨s2.scores playerId - startingScore, s2.terminal, [("action", "check")]⟩))
      else
        let s2 := { s1 with currentPlayer := pokerOpponent s1 playerId }
        some (s2, ⟨s2.scores playerId - startingScore, s2.terminal, [("action", "check")]⟩)

/-- `HeadsUpPokerGame.final_scores`. -/
def pokerFinalScores (s : PokerState) : String → ℚ := s.scores

/-- `HeadsUpPokerGame.reset`: shuffle, pre-commit the five-card board plan,
deal two cards to each seat, post blinds, big blind acts first preflop. -/
def pokerReset (shuffle : List Card → List Card) (cfg : PokerConfig)
    (p0 p1 : String) : Option PokerState :=
  let deck := shuffle ((List.range 13).map (fun i => ((i + 2 : ℕ), 0)) >>= fun c =>
    [c, (c.1, 1), (c.1, 2), (c.1, 3)])
  match deck with
  | b1 :: b2 :: b3 :: b4 :: b5 :: h1 :: h2 :: h3 :: h4 :: deckRest =>
    some { p0 := p0, p1 := p1,
           scores := fun _ => 0,
           pstates := dictSet (dictSet (fun _ => default) p0 { hand := [h1, h2] }) p1
             { hand := [h3, h4] },
           deck := deckRest,
           boardPlan := [b1, b2, b3, b4, b5],
           board := [], stage := "preflop", stageActions := [],
           awaitingCall := false, aggressor := none,
           currentPlayer := p1, terminal := false, winner := none,
           pot := 2 * cfg.betAmount,
           history := ["Blinds posted. Hand begins."] }
  | _ => none

/-! ## Tic-tac-toe engine (`bench/games/tic_tac_toe/engine.py`) -/

/-- The reward constants of `TicTacToeGame`, with their Python defaults. -/
structure TTTConfig where
  winReward : ℚ := 1
  lossPenalty : ℚ := -1
  invalidPenalty : ℚ := -1 / 2

/-- The default `TicTacToeGame` reward configuration. -/
def defaultTTTConfig : TTTConfig := {}

/-- The default player list `("player_x", "player_o")`. -/
def tttPlayers : List String := ["player_x", "player_o"]

/-- The `SYMBOLS` class mapping (defined for the two default players). -/
def tttSymbol (playerId : String) : String :=
  if playerId = "player_x" then "X" else "O"

/-- The mutable round state of `TicTacToeGame`; board cells are `" "`,
`"X"` or `"O"`. -/
structure TTTState where
  board : List String
  currentIndex : ℕ
  winner : Option String
  terminal : Bool
  scores : String → ℚ
  turnCount : ℕ

/-- `TicTacToeGame.reset`. -/
def tttReset : TTTState :=
  { board := List.replicate 9 " ", currentIndex := 0, winner := none,
    terminal := false, scores := fun _ => 0, turnCount := 0 }

/-- `TicTacToeGame.current_player`. -/
def tttCurrentPlayer (s : TTTState) : String :=
  tttPlayers.getD s.currentIndex ""

/-- `_opponent`: the first player different from the argument, or the
argument itself if there is none. -/
def tttOpponent (playerId : String) : String :=
  match tttPlayers.find? (fun q => q ≠ playerId) with
  | some q => q
  | none => playerId

/-- Decimal value of an all-digit token (Python `int`). -/
def digitsToNat (chars : List Char) : ℕ :=
  chars.foldl (fun n c => n * 10 + (c.toNat - 48)) 0

/-- Python `token.isdigit()` followed by `int(token)`: succeeds exactly on
nonempty all-digit tokens. -/
def tokenToNat? (chars : List Char) : Option ℕ :=
  if chars ≠ [] ∧ chars.all Char.isDigit then some (digitsToNat chars) else none

/-- `_parse_move`: strip/lowercase, replace hyphens by spaces, split on
whitespace, and return the first all-digit token whose value lies in
`1..9`, as a 0-based cell index. -/
def parseMove (command : String) : Option ℕ :=
  let text := strLower (strTrim command)
  if text = "" then none
  else
    let tokens := (List.splitOnP (fun c => c.isWhitespace)
      (text.data.map (fun c => if c = '-' then ' ' else c))).filter (· ≠ [])
    tokens.findSome? (fun t =>
      match tokenToNat? t with
      | some v => if 1 ≤ v ∧ v ≤ 9 then some (v - 1) else none
      | none => none)

/-- The eight winning lines of `_check_win`. -/
def winLines : List (ℕ × ℕ × ℕ) :=
  [(0, 1, 2), (3, 4, 5), (6, 7, 8), (0, 3, 6), (1, 4, 7), (2, 5, 8), (0, 4, 8), (2, 4, 6)]

/-- `_check_win`: some winning line is fully occupied by `symbol`. -/
def checkWin (board : List String) (symbol : String) : Bool :=
  winLines.any (fun l =>
    board.getD l.1 " " == symbol && board.getD l.2.1 " " == symbol &&
      board.getD l.2.2 " " == symbol)

/-- `TicTacToeGame.apply` (total: tic-tac-toe never raises). -/
def tttApply (cfg : TTTConfig) (s : TTTState) (playerId command : String) :
    TTTState × TurnUpdate :=
  if s.terminal then
    (s, ⟨0, true, [("reason", "match_already_finished")]⟩)
  else if playerId ≠ tttCurrentPlayer s then
    ({ s with scores := dictSet s.scores playerId (s.scores playerId + cfg.invalidPenalty) },
      ⟨cfg.invalidPenalty, false, [("invalid", "true"), ("reason", "out_of_turn")]⟩)
  else
    let moveIndex := parseMove command
    match moveIndex with
    | none =>
      ({ s with scores := dictSet s.scores playerId (s.scores playerId + cfg.invalidPenalty) },
        ⟨cfg.invalidPenalty, false, [("invalid", "true"), ("reason", "illegal_move")]⟩)
    | some i =>
      if s.board.getD i " " ≠ " " then
        ({ s with scores := dictSet s.scores playerId (s.scores playerId + cfg.invalidPenalty) },
          ⟨cfg.invalidPenalty, false, [("invalid", "true"), ("reason", "illegal_move")]⟩)
      else
        let symbol := tttSymbol playerId
        let board1 := s.board.set i symbol
        let s1 := { s with board := board1, turnCount := s.turnCount + 1 }
        if checkWin board1 symbol then
          let opponent := tttOpponent playerId
          let sc1 := dictSet s1.scores playerId (s1.scores playerId + cfg.winReward)
          ({ s1 with
              terminal := true, winner := some playerId,
              scores := dictSet sc1 opponent (sc1 opponent + cfg.lossPenalty) },
            ⟨cfg.winReward, true, [("outcome", "win"), ("winner", playerId)]⟩)
        else if board1.all (fun cell => cell != " ") then
          ({ s1 with terminal := true, winner := none },
            ⟨0, true, [("outcome", "draw")]⟩)
        else
          ({ s1 with currentIndex := (s1.currentIndex + 1) % tttPlayers.length },
            ⟨0, false, [("outcome", "ongoing")]⟩)

/-- `TicTacToeGame.final_scores`. -/
def tttFinalScores (s : TTTState) : String → ℚ := s.scores

/-- The sum of the two default players' final scores. -/
def tttSumScores (s : TTTState) : ℚ :=
  (tttPlayers.map s.scores).sum

end PersonaBench

namespace PersonaBench

/-! ## Game master orchestration (`bench/core/game_master.py`) -/

/-- `TurnRecord`: one audit-trail entry. -/
structure TurnRecord where
  turnIndex : ℕ
  playerId : String
  command : String
  reward : ℚ
  info : List (String × String)

/-- `MatchResult`; the free-form `status` snapshot is modelled by the final
game state it is rendered from. -/
structure MatchResult (σ : Type) where
  turns : List TurnRecord
  scores : String → ℚ
  winner : Option String
  status : σ
  completed : Bool

/-- The `TurnBasedGame` interface, as the bundle of operations the game
master consumes; `σ` is the concrete game's state, `Obs` its observation
payload.  `reset`/`applyMove` are `Option`-valued because the Python
methods can raise (deck exhaustion). -/
structure Game (σ Obs : Type) where
  players : List String
  reset : Option σ
  currentPlayer : σ → String
  observation : σ → String → Obs
  legalActions : σ → String → List String
  applyMove : σ → String → String → Option (σ × TurnUpdate)
  isTerminal : σ → Bool
  finalScores : σ → String → ℚ

/-- `_determine_winner`: the unique maximiser of the final score table, or
`None` on a tie (the player list stands in for the dict's key set). -/
def determineWinner (players : List String) (scores : String → ℚ) : Option String :=
  match players with
  | [] => none
  | p :: rest =>
    let best := (rest.map scores).foldl max (scores p)
    match players.filter (fun q => scores q = best) with
    | [w] => some w
    | _ => none

/-- `max(1, int(max_turns))` from `GameMaster.__init__`, as a fuel bound. -/
def clampTurns (maxTurns : ℤ) : ℕ := (max 1 maxTurns).toNat

/-- The turn loop of `GameMaster.run`.  A decision function receives the
observation payload and the legal-move list the orchestrator merges into
it, and returns the command string; `none` models an exception escaping
from `apply`. -/
def runLoop {σ Obs : Type} (g : Game σ Obs)
    (agents : String → Obs → List String → String) :
    ℕ → σ → List TurnRecord → (String → ℚ) →
    Option (σ × List TurnRecord × (String → ℚ))
  | 0, s, turns, scores => some (s, turns, scores)
  | n + 1, s, turns, scores =>
    if g.isTerminal s then some (s, turns, scores)
    else
      let playerId := g.currentPlayer s
      let command := agents playerId (g.observation s playerId) (g.legalActions s playerId)
      match g.applyMove s playerId command with
      | none => none
      | some (s1, upd) =>
        let turns1 := turns ++ [⟨turns.length, playerId, command, upd.reward, upd.info⟩]
        let scores1 := dictSet scores playerId (scores playerId + upd.reward)
        if upd.done ∧ g.isTerminal s1 then some (s1, turns1, scores1)
        else runLoop g agents n s1 turns1 scores1

/-- `GameMaster.run`: reset, loop up to the clamped turn ceiling, then
report authoritative final scores and the derived winner when the game
completed, else the running tally and no winner. -/
def runMaster {σ Obs : Type} (g : Game σ Obs)
    (agents : String → Obs → List String → String) (maxTurns : ℤ) :
    Option (MatchResult σ) :=
  match g.reset with
  | none => none
  | some s0 =>
    match runLoop g agents (clampTurns maxTurns) s0 [] (fun _ => 0) with
    | none => none
    | some (s, turns, running) =>
      let completed := g.isTerminal s
      let finalScores := if completed then g.finalScores s else running
      let winner := if completed then determineWinner g.players finalScores else none
      some ⟨turns, finalScores, winner, s, completed⟩

/-- The observation payload of `BlackjackGame.observation` (its rendered
`text` and `dealer_total` fields, being re-renderings of the fields kept
here, are not modelled). -/
structure BJObs where
  hand : List ℕ
  handTotal : ℕ
  dealerCards : List String
  outcome : Option String
  isTerminal : Bool
  legalMoves : List String

/-- `BlackjackGame.observation`: the dealer's second card stays hidden
until the dealer has been resolved or the match ended. -/
def bjObservation (s : BJState) (playerId : String) : BJObs :=
  let st := s.pstates playerId
  let reveal := s.dealerResolved || s.terminal
  { hand := st.hand,
    handTotal := handValue st.hand,
    dealerCards := if reveal then s.dealer.map cardLabel
      else [cardLabel (s.dealer.headD 0), "hidden"],
    outcome := st.outcome,
    isTerminal := s.terminal,
    legalMoves := bjLegalActions s playerId }

/-- A `BlackjackGame` instance as seen by the game master: construction
takes the player list, the seed, and the reward overrides; the shuffle is
the seed-indexed model of `random.Random(seed).shuffle`. -/
def blackjackGame (shuffle : ℕ → List ℕ → List ℕ) (cfg : BJConfig)
    (players : List String) (seed : ℕ) : Game BJState BJObs :=
  { players := players,
    reset := bjReset (shuffle seed) players,
    currentPlayer := bjCurrentPlayer,
    observation := bjObservation,
    legalActions := bjLegalActions,
    applyMove := bjApply cfg,
    isTerminal := fun s => s.terminal,
    finalScores := bjFinalScores }

/-- C8: two game-master runs over game instances constructed with
identical seeds, identical player lists, and identical deterministic
decision functions produce identical match results. -/
theorem game_master_deterministic {σ Obs : Type}
    (mkGame : List String → ℕ → Game σ Obs)
    (players1 players2 : List String) (seed1 seed2 : ℕ)
    (agents1 agents2 : String → Obs → List String → String)
    (maxTurns1 maxTurns2 : ℤ)
    (hplayers : players1 = players2) (hseed : seed1 = seed2)
    (hagents : agents1 = agents2) (hmax : maxTurns1 = maxTurns2) :
    runMaster (mkGame players1 seed1) agents1 maxTurns1 =
      runMaster (mkGame players2 seed2) agents2 maxTurns2 := by
  subst hplayers; subst hseed; subst hagents; subst hmax; rfl

/-- Witness for C8: two identically-seeded blackjack matches with the same
always-stand agents. -/
theorem game_master_deterministic_witness :
    (["p1", "p2"] : List String) = ["p1", "p2"] ∧ (42 : ℕ) = 42 ∧
    runMaster (blackjackGame (fun _ l => l.reverse) defaultBJConfig ["p1", "p2"] 42)
        (fun _ _ _ => "stand") 200 =
      runMaster (blackjackGame (fun _ l => l.reverse) defaultBJConfig ["p1", "p2"] 42)
        (fun _ _ _ => "stand") 200 :=
  ⟨rfl, rfl,
    game_master_deterministic
      (fun ps seed => blackjackGame (fun _ l => l.reverse) defaultBJConfig ps seed)
      ["p1", "p2"] ["p1", "p2"] 42 42 _ _ 200 200 rfl rfl rfl rfl⟩

theorem clampTurns_pos (maxTurns : ℤ) : 1 ≤ clampTurns maxTurns := by
  unfold clampTurns
  omega

theorem runLoop_length_mono {σ Obs : Type} (g : Game σ Obs)
    (agents : String → Obs → List String → String) :
    ∀ (n : ℕ) (s : σ) (turns : List TurnRecord) (scores : String → ℚ)
      (s' : σ) (turns' : List TurnRecord) (scores' : String → ℚ),
      runLoop g agents n s turns scores = some (s', turns', scores') →
      turns.length ≤ turns'.length := by
  intro n
  induction n with
  | zero =>
    intro s turns scores s' turns' scores' h
    simp only [runLoop, Option.some_inj, Prod.mk.injEq] at h
    exact le_of_eq (congrArg List.length h.2.1)
  | succ n ih =>
    intro s turns scores s' turns' scores' h
    rw [runLoop] at h
    split at h
    · simp only [Option.some_inj, Prod.mk.injEq] at h
      exact le_of_eq (congrArg List.length h.2.1)
    · dsimp only at h
      split at h
      · exact absurd h (by simp)
      · split at h
        · simp only [Option.some_inj, Prod.mk.injEq] at h
          rw [← h.2.1]
          simp
        · have := ih _ _ _ _ _ _ h
          simp only [List.length_append, List.length_cons, List.length_nil] at this
          omega

theorem runLoop_nonterminal_progress {σ Obs : Type} (g : Game σ Obs)
    (agents : String → Obs → List String → String)
    (n : ℕ) (s : σ) (turns : List TurnRecord) (scores : String → ℚ)
    (s' : σ) (turns' : List TurnRecord) (scores' : String → ℚ)
    (hterm : g.isTerminal s = false)
    (h : runLoop g agents (n + 1) s turns scores = some (s', turns', scores')) :
    turns.length + 1 ≤ turns'.length := by
  rw [runLoop] at h
  split at h
  · simp_all
  · dsimp only at h
    split at h
    · exact absurd h (by simp)
    · split at h
      · simp only [Option.some_inj, Prod.mk.injEq] at h
        rw [← h.2.1]
        simp
      · have := runLoop_length_mono g agents n _ _ _ _ _ _ h
        simp only [List.length_append, List.length_cons, List.length_nil] at this
        omega

/-- C10: the turn ceiling is clamped to at least one at construction, so
for every `max_turns` argument (zero and negatives included) a successful
run of a game that is not terminal immediately after reset records at
least one turn. -/
theorem run_executes_first_turn {σ Obs : Type} (g : Game σ Obs)
    (agents : String → Obs → List String → String) (maxTurns : ℤ)
    (res : MatchResult σ) (s0 : σ)
    (hreset : g.reset = some s0) (hnonterminal : g.isTerminal s0 = false)
    (hrun : runMaster g agents maxTurns = some res) :
    1 ≤ clampTurns maxTurns ∧ 1 ≤ res.turns.length := by
  refine ⟨clampTurns_pos maxTurns, ?_⟩
  unfold runMaster at hrun
  split at hrun
  · cases hrun
  · next s0' heq =>
    rw [hreset] at heq
    have hs : s0 = s0' := Option.some_inj.mp heq
    subst hs
    split at hrun
    · cases hrun
    · next s turns running heq2 =>
      have hres : res.turns = turns := by
        have := Option.some_inj.mp hrun
        rw [← this]
      rw [hres]
      obtain ⟨n, hn⟩ : ∃ n, clampTurns maxTurns = n + 1 := by
        have := clampTurns_pos maxTurns
        exact ⟨clampTurns maxTurns - 1, by omega⟩
      rw [hn] at heq2
      have := runLoop_nonterminal_progress g agents n s0 [] (fun _ => 0)
        s turns running hnonterminal heq2
      simpa using this

end PersonaBench

namespace PersonaBench

theorem ensureCurrentIndex_scores (s : BJState) :
    (ensureCurrentIndex s).scores = s.scores := by
  unfold ensureCurrentIndex
  split
  · rfl
  · split <;> rfl

theorem ensureCurrentIndex_terminal (s : BJState) :
    (ensureCurrentIndex s).terminal = s.terminal := by
  unfold ensureCurrentIndex
  split
  · rfl
  · split <;> rfl

/-- C7: in all three games, `apply` called on a terminal state returns
reward `0`, `done = true` and the matching diagnostic reason, and hands
back the round state completely unchanged. -/
theorem apply_after_terminal_is_noop
    (bjCfg : BJConfig) (pkCfg : PokerConfig) (tCfg : TTTConfig)
    (bs : BJState) (ps : PokerState) (ts : TTTState)
    (bp bc pp pc tp tc : String)
    (hbs : bs.terminal = true) (hps : ps.terminal = true) (hts : ts.terminal = true) :
    bjApply bjCfg bs bp bc = some (bs, ⟨0, true, [("reason", "match_already_finished")]⟩) ∧
    pokerApply pkCfg ps pp pc = some (ps, ⟨0, true, [("reason", "hand_already_finished")]⟩) ∧
    tttApply tCfg ts tp tc = (ts, ⟨0, true, [("reason", "match_already_finished")]⟩) := by
  refine ⟨?_, ?_, ?_⟩
  · rw [bjApply, if_pos hbs]
  · rw [pokerApply, if_pos hps]
  · rw [tttApply, if_pos hts]

/-- A terminal blackjack state used by witnesses. -/
def bjTerminalDemo : BJState :=
  { players := ["p1", "p2"], scores := fun _ => 0, pstates := fun _ => default,
    deck := [], dealer := [10, 9], currentIndex := 0,
    terminal := true, dealerResolved := true }

/-- A terminal poker state used by witnesses. -/
def pokerTerminalDemo : PokerState :=
  { p0 := "a", p1 := "b", scores := fun _ => 0, pstates := fun _ => default,
    deck := [], boardPlan := [], board := [], stage := "finished",
    stageActions := [], awaitingCall := false, aggressor := none,
    currentPlayer := "a", terminal := true, winner := some "a", pot := 2,
    history := [] }

/-- Witness for C7 at concrete terminal states of the three games. -/
theorem apply_after_terminal_is_noop_witness :
    bjTerminalDemo.terminal = true ∧ pokerTerminalDemo.terminal = true ∧
    ({ tttReset with terminal := true } : TTTState).terminal = true ∧
    (bjApply defaultBJConfig bjTerminalDemo "p1" "hit" =
        some (bjTerminalDemo, ⟨0, true, [("reason", "match_already_finished")]⟩) ∧
      pokerApply defaultPokerConfig pokerTerminalDemo "a" "fold" =
        some (pokerTerminalDemo, ⟨0, true, [("reason", "hand_already_finished")]⟩) ∧
      tttApply defaultTTTConfig { tttReset with terminal := true } "player_x" "5" =
        ({ tttReset with terminal := true }, ⟨0, true, [("reason", "match_already_finished")]⟩)) :=
  ⟨rfl, rfl, rfl,
    apply_after_terminal_is_noop defaultBJConfig defaultPokerConfig defaultTTTConfig
      bjTerminalDemo pokerTerminalDemo { tttReset with terminal := true }
      "p1" "hit" "a" "fold" "player_x" "5" rfl rfl rfl⟩

end PersonaBench

namespace PersonaBench

/-- A non-terminal blackjack state with `"p1"` to act, used by C5. -/
def bjLiveDemo : BJState :=
  { players := ["p1", "p2"],
    scores := fun _ => 0,
    pstates := fun _ => { hand := [10, 5] },
    deck := [2, 3, 4, 5], dealer := [10, 9], currentIndex := 0,
    terminal := false, dealerResolved := false }

/-- C5 counterexample: blackjack's out-of-turn branch returns the invalid
penalty as the turn reward with `invalid`/`out_of_turn` info and keeps the
game non-terminal, but does NOT add the penalty to the accumulator that
`final_scores` reports: the acting player's score stays `0`. -/
theorem out_of_turn_not_recorded_in_blackjack_scores :
    (bjApply defaultBJConfig bjLiveDemo "p2" "hit").map (fun r =>
        (r.2.reward, r.2.done, r.2.info, bjFinalScores r.1 "p2", r.1.terminal)) =
      some (-2, false, [("invalid", "true"), ("reason", "out_of_turn")], 0, false) := by
  rfl

/-- C5 amended: in a non-terminal state, an out-of-turn `apply` never
raises, leaves the game non-terminal, and returns the configured invalid
penalty as the reward together with `invalid = true` and
`reason = out_of_turn`; tic-tac-toe additionally adds the penalty to the
acting player's score accumulator, while blackjack and poker leave their
accumulators — and hence `final_scores` — unchanged (there the penalty
reaches only the orchestrator's running tally via the returned reward). -/
theorem out_of_turn_is_penalised_but_scored_only_in_ttt
    (bjCfg : BJConfig) (pkCfg : PokerConfig) (tCfg : TTTConfig)
    (bs : BJState) (ps : PokerState) (ts : TTTState)
    (bp bc pp pc tp tc : String)
    (hbs : bs.terminal = false) (hbp : bp ≠ bjCurrentPlayer bs)
    (hps : ps.terminal = false) (hpp : pp ≠ ps.currentPlayer)
    (hts : ts.terminal = false) (htp : tp ≠ tttCurrentPlayer ts) :
    bjApply bjCfg bs bp bc =
      some (ensureCurrentIndex bs,
        ⟨bjCfg.invalidPenalty, false, [("invalid", "true"), ("reason", "out_of_turn")]⟩) ∧
    (ensureCurrentIndex bs).terminal = false ∧
    bjFinalScores (ensureCurrentIndex bs) = bjFinalScores bs ∧
    pokerApply pkCfg ps pp pc =
      some (ps, ⟨pkCfg.invalidPenalty, false, [("invalid", "true"), ("reason", "out_of_turn")]⟩) ∧
    tttApply tCfg ts tp tc =
      ({ ts with scores := dictSet ts.scores tp (ts.scores tp + tCfg.invalidPenalty) },
        ⟨tCfg.invalidPenalty, false, [("invalid", "true"), ("reason", "out_of_turn")]⟩) ∧
    dictSet ts.scores tp (ts.scores tp + tCfg.invalidPenalty) tp =
      ts.scores tp + tCfg.invalidPenalty ∧
    ({ ts with scores := dictSet ts.scores tp (ts.scores tp + tCfg.invalidPenalty) } :
      TTTState).terminal = false := by
  refine ⟨?_, ?_, ?_, ?_, ?_, ?_, ?_⟩
  · unfold bjApply
    rw [if_neg (by simp [hbs])]
    unfold bjCurrentPlayer at hbp
    rw [if_pos hbp]
  · rw [ensureCurrentIndex_terminal]
    exact hbs
  · unfold bjFinalScores
    exact ensureCurrentIndex_scores bs
  · unfold pokerApply
    rw [if_neg (by simp [hps]), if_pos hpp]
  · unfold tttApply
    rw [if_neg (by simp [hts]), if_pos htp]
  · simp [dictSet]
  · exact hts

end PersonaBench

namespace PersonaBench

/-- A non-terminal preflop poker state with `"b"` to act, used by C5/C6. -/
def pokerLiveDemo : PokerState :=
  { p0 := "a", p1 := "b", scores := fun _ => 0, pstates := fun _ => default,
    deck := [], boardPlan := [(2, 0), (3, 1), (4, 2), (5, 3), (6, 0)], board := [],
    stage := "preflop", stageActions := [], awaitingCall := false, aggressor := none,
    currentPlayer := "b", terminal := false, winner := none, pot := 2,
    history := ["Blinds posted. Hand begins."] }

/-- Witness for the amended C5 at concrete out-of-turn calls in all three
games. -/
theorem out_of_turn_is_penalised_but_scored_only_in_ttt_witness :
    (bjLiveDemo.terminal = false ∧ "p2" ≠ bjCurrentPlayer bjLiveDemo ∧
      pokerLiveDemo.terminal = false ∧ "a" ≠ pokerLiveDemo.currentPlayer ∧
      tttReset.terminal = false ∧ "player_o" ≠ tttCurrentPlayer tttReset) ∧
    (bjApply defaultBJConfig bjLiveDemo "p2" "hit" =
       some (ensureCurrentIndex bjLiveDemo,
         ⟨defaultBJConfig.invalidPenalty, false,
           [("invalid", "true"), ("reason", "out_of_turn")]⟩) ∧
     (ensureCurrentIndex bjLiveDemo).terminal = false ∧
     bjFinalScores (ensureCurrentIndex bjLiveDemo) = bjFinalScores bjLiveDemo ∧
     pokerApply defaultPokerConfig pokerLiveDemo "a" "check" =
       some (pokerLiveDemo,
         ⟨defaultPokerConfig.invalidPenalty, false,
           [("invalid", "true"), ("reason", "out_of_turn")]⟩) ∧
     tttApply defaultTTTConfig tttReset "player_o" "5" =
       ({ tttReset with
           scores := dictSet tttReset.scores "player_o"
             (tttReset.scores "player_o" + defaultTTTConfig.invalidPenalty) },
         ⟨defaultTTTConfig.invalidPenalty, false,
           [("invalid", "true"), ("reason", "out_of_turn")]⟩) ∧
     dictSet tttReset.scores "player_o"
         (tttReset.scores "player_o" + defaultTTTConfig.invalidPenalty) "player_o" =
       tttReset.scores "player_o" + defaultTTTConfig.invalidPenalty ∧
     ({ tttReset with
         scores := dictSet tttReset.scores "player_o"
           (tttReset.scores "player_o" + defaultTTTConfig.invalidPenalty) } :
       TTTState).terminal = false) :=
  ⟨⟨rfl, by decide, rfl, by decide, rfl, by decide⟩,
    out_of_turn_is_penalised_but_scored_only_in_ttt
      defaultBJConfig defaultPokerConfig defaultTTTConfig
      bjLiveDemo pokerLiveDemo tttReset
      "p2" "hit" "a" "check" "player_o" "5"
      rfl (by decide) rfl (by decide) rfl (by decide)⟩

end PersonaBench

namespace PersonaBench

/-- C6: a fold by the current (unfolded) player on any live street ends
the hand immediately: the folder's accumulator receives the fold penalty,
the opponent's the win reward, the opponent is recorded as winner, the
fold penalty is the returned reward, and afterwards no player has a legal
action. -/
theorem poker_fold_ends_hand (cfg : PokerConfig) (s : PokerState) (p : String)
    (hterm : s.terminal = false)
    (hcur : p = s.currentPlayer)
    (hnotfolded : (s.pstates p).folded = false)
    (hstage : s.stage = "preflop" ∨ s.stage = "flop" ∨ s.stage = "turn" ∨ s.stage = "river")
    (hp : p = s.p0 ∨ p = s.p1) (hdistinct : s.p0 ≠ s.p1) :
    ∃ s' u, pokerApply cfg s p "fold" = some (s', u) ∧
      s'.terminal = true ∧
      s'.winner = some (pokerOpponent s p) ∧
      s'.scores p = s.scores p + cfg.foldPenalty ∧
      s'.scores (pokerOpponent s p) = s.scores (pokerOpponent s p) + cfg.winReward ∧
      u.reward = cfg.foldPenalty ∧ u.done = true ∧
      (∀ q, pokerLegalActions s' q = []) := by
  have hopp : pokerOpponent s p ≠ p := by
    unfold pokerOpponent
    rcases hp with rfl | rfl
    · simp [hdistinct.symm]
    · have h01 : s.p1 ≠ s.p0 := hdistinct.symm
      simp [h01]
      exact hdistinct
  have hnorm : strLower (strTrim "fold") = "fold" := by decide
  have hnotshow : ¬ (s.stage = "showdown" ∨ s.stage = "finished") := by
    rcases hstage with h | h | h | h <;> simp [h]
  have hlegal : (pokerLegalActions s p).contains "fold" = true := by
    unfold pokerLegalActions legalMovesForStage
    rw [if_neg (by simp [hterm, hnotfolded]), if_neg (by simp [hcur]), if_neg hnotshow]
    cases s.awaitingCall <;> simp
  have hne : p ≠ pokerOpponent s p := Ne.symm hopp
  unfold pokerApply
  rw [if_neg (by simp [hterm]), if_neg (by simp [hcur])]
  dsimp only
  rw [hnorm, if_neg (by simpa using hlegal), if_pos rfl]
  refine ⟨_, _, rfl, rfl, rfl, ?_, ?_, ?_, rfl, ?_⟩
  · simp [dictSet, hne]
  · simp [dictSet, hopp]
  · simp [dictSet, hne]
  · intro q
    unfold pokerLegalActions
    rw [if_pos (by simp)]

/-- Witness for C6: an immediate preflop fold by the big blind. -/
theorem poker_fold_ends_hand_witness :
    (pokerLiveDemo.terminal = false ∧ "b" = pokerLiveDemo.currentPlayer ∧
      (pokerLiveDemo.pstates "b").folded = false ∧
      pokerLiveDemo.stage = "preflop" ∧ pokerLiveDemo.p0 ≠ pokerLiveDemo.p1) ∧
    (∃ s' u, pokerApply defaultPokerConfig pokerLiveDemo "b" "fold" = some (s', u) ∧
      s'.terminal = true ∧
      s'.winner = some (pokerOpponent pokerLiveDemo "b") ∧
      s'.scores "b" = pokerLiveDemo.scores "b" + defaultPokerConfig.foldPenalty ∧
      s'.scores (pokerOpponent pokerLiveDemo "b") =
        pokerLiveDemo.scores (pokerOpponent pokerLiveDemo "b") +
          defaultPokerConfig.winReward ∧
      u.reward = defaultPokerConfig.foldPenalty ∧ u.done = true ∧
      (∀ q, pokerLegalActions s' q = [])) :=
  ⟨⟨rfl, rfl, rfl, rfl, by decide⟩,
    poker_fold_ends_hand defaultPokerConfig pokerLiveDemo "b"
      rfl rfl rfl (Or.inl rfl) (Or.inr rfl) (by decide)⟩

end PersonaBench

namespace PersonaBench

/-- C9: when the current player submits a command that fails to parse to a
cell index, or addresses an occupied cell, `apply` never mutates the
board, reports `invalid = true` with reason `illegal_move`, adds the
invalid penalty to that player's score accumulator, and leaves the current
player unchanged. -/
theorem ttt_invalid_move_is_frame (cfg : TTTConfig) (s : TTTState) (p c : String)
    (hterm : s.terminal = false)
    (hcur : p = tttCurrentPlayer s)
    (hbad : parseMove c = none ∨ ∃ i, parseMove c = some i ∧ s.board.getD i " " ≠ " ") :
    ∃ s' u, tttApply cfg s p c = (s', u) ∧
      s'.board = s.board ∧
      u.info = [("invalid", "true"), ("reason", "illegal_move")] ∧
      u.reward = cfg.invalidPenalty ∧
      s'.scores p = s.scores p + cfg.invalidPenalty ∧
      s'.terminal = false ∧
      tttCurrentPlayer s' = tttCurrentPlayer s := by
  unfold tttApply
  rw [if_neg (by simp [hterm]), if_neg (by simp [hcur])]
  dsimp only
  rcases hbad with hnone | ⟨i, hsome, hocc⟩
  · rw [hnone]
    dsimp only
    exact ⟨_, _, rfl, rfl, rfl, rfl, by simp [dictSet], hterm, rfl⟩
  · rw [hsome]
    dsimp only
    rw [if_pos hocc]
    exact ⟨_, _, rfl, rfl, rfl, rfl, by simp [dictSet], hterm, rfl⟩

/-- The board after `player_x` opens on cell 1, used by the C9 witness. -/
def tttMidDemo : TTTState :=
  (tttApply defaultTTTConfig tttReset "player_x" "1").1

/-- Witness for C9: `player_o` replays the occupied cell 1. -/
theorem ttt_invalid_move_is_frame_witness :
    (tttMidDemo.terminal = false ∧ "player_o" = tttCurrentPlayer tttMidDemo ∧
      parseMove "1" = some 0 ∧ tttMidDemo.board.getD 0 " " ≠ " ") ∧
    (∃ s' u, tttApply defaultTTTConfig tttMidDemo "player_o" "1" = (s', u) ∧
      s'.board = tttMidDemo.board ∧
      u.info = [("invalid", "true"), ("reason", "illegal_move")] ∧
      u.reward = defaultTTTConfig.invalidPenalty ∧
      s'.scores "player_o" = tttMidDemo.scores "player_o" + defaultTTTConfig.invalidPenalty ∧
      s'.terminal = false ∧
      tttCurrentPlayer s' = tttCurrentPlayer tttMidDemo) :=
  ⟨⟨by decide, by decide, by decide, by decide⟩,
    ttt_invalid_move_is_frame defaultTTTConfig tttMidDemo "player_o" "1"
      (by decide) (by decide) (Or.inr ⟨0, by decide, by decide⟩)⟩

end PersonaBench

namespace PersonaBench

/-- C4 counterexample: a single out-of-turn call right after reset leaves
the tic-tac-toe score sum at the invalid penalty, not at zero. -/
theorem ttt_not_zero_sum_after_penalty :
    tttSumScores (tttApply defaultTTTConfig tttReset "player_o" "5").1 = -(1 / 2) ∧
    tttSumScores (tttApply defaultTTTConfig tttReset "player_o" "5").1 ≠ 0 := by
  have hxo : ("player_x" : String) ≠ "player_o" := by decide
  have hstate : (tttApply defaultTTTConfig tttReset "player_o" "5").1 =
      { tttReset with
        scores := dictSet tttReset.scores "player_o"
          (tttReset.scores "player_o" + defaultTTTConfig.invalidPenalty) } := by
    unfold tttApply
    rw [if_neg (by decide), if_pos (by decide)]
  rw [hstate]
  constructor
  · simp [tttSumScores, tttPlayers, dictSet, hxo, tttReset, defaultTTTConfig]
    norm_num
  · simp [tttSumScores, tttPlayers, dictSet, hxo, tttReset, defaultTTTConfig]

theorem dictSet_same {α : Type} (f : String → α) (k : String) (v : α) :
    dictSet f k v k = v := by
  simp [dictSet]

theorem dictSet_other {α : Type} (f : String → α) (k : String) (v : α) (q : String)
    (h : q ≠ k) : dictSet f k v q = f q := by
  simp [dictSet, h]

/-- A call that `TicTacToeGame.apply` does not penalise: either the match
is already over (a no-op), or the current player plays a parseable move
onto an empty cell. -/
def tttProperStep (s : TTTState) (p command : String) : Bool :=
  s.terminal ||
    (p == tttCurrentPlayer s &&
      match parseMove command with
      | some i => s.board.getD i " " == " "
      | none => false)

/-- Fold `apply` over a list of `(player, command)` calls. -/
def tttApplySeq (cfg : TTTConfig) (s : TTTState) : List (String × String) → TTTState
  | [] => s
  | (p, c) :: rest => tttApplySeq cfg (tttApply cfg s p c).1 rest

/-- Every call of the sequence is proper at the point it is applied. -/
def tttProperSeq (cfg : TTTConfig) (s : TTTState) : List (String × String) → Bool
  | [] => true
  | (p, c) :: rest => tttProperStep s p c && tttProperSeq cfg (tttApply cfg s p c).1 rest

theorem tttApply_proper_step_zero_sum (cfg : TTTConfig)
    (hzero : cfg.winReward + cfg.lossPenalty = 0)
    (s : TTTState) (p c : String)
    (hidx : s.currentIndex < 2)
    (hsum : tttSumScores s = 0)
    (hstep : tttProperStep s p c = true) :
    tttSumScores (tttApply cfg s p c).1 = 0 ∧ (tttApply cfg s p c).1.currentIndex < 2 := by
  have hxo : ("player_x" : String) ≠ "player_o" := by decide
  have hox : ("player_o" : String) ≠ "player_x" := by decide
  by_cases hterm : s.terminal = true
  · unfold tttApply
    rw [if_pos hterm]
    exact ⟨hsum, hidx⟩
  · have hterm' : s.terminal = false := by simpa using hterm
    unfold tttProperStep at hstep
    rw [hterm'] at hstep
    simp only [Bool.false_or, Bool.and_eq_true, beq_iff_eq] at hstep
    obtain ⟨hcur, hmove⟩ := hstep
    cases hparse : parseMove c with
    | none => rw [hparse] at hmove; cases hmove
    | some i =>
      rw [hparse] at hmove
      have hempty : s.board.getD i " " = " " := by simpa using hmove
      unfold tttApply
      rw [if_neg (by simp [hterm']), if_neg (by simp [hcur])]
      dsimp only
      rw [hparse]
      dsimp only
      rw [if_neg (not_not_intro hempty)]
      simp only [tttSumScores, tttPlayers, List.map_cons, List.map_nil, List.sum_cons,
        List.sum_nil] at hsum
      have hcases : s.currentIndex = 0 ∨ s.currentIndex = 1 := by omega
      by_cases hwin : checkWin (s.board.set i (tttSymbol p)) (tttSymbol p) = true
      · rw [if_pos hwin]
        refine ⟨?_, hidx⟩
        rcases hcases with h0 | h1
        · have hp : p = "player_x" := by
            rw [hcur]; simp [tttCurrentPlayer, tttPlayers, h0]
          subst hp
          have hob : tttOpponent "player_x" = "player_o" := by decide
          simp only [tttSumScores, tttPlayers, List.map_cons, List.map_nil, List.sum_cons,
            List.sum_nil, hob, dictSet_same,
            dictSet_other _ _ _ _ hxo, dictSet_other _ _ _ _ hox]
          linarith
        · have hp : p = "player_o" := by
            rw [hcur]; simp [tttCurrentPlayer, tttPlayers, h1]
          subst hp
          have hob : tttOpponent "player_o" = "player_x" := by decide
          simp only [tttSumScores, tttPlayers, List.map_cons, List.map_nil, List.sum_cons,
            List.sum_nil, hob, dictSet_same,
            dictSet_other _ _ _ _ hxo, dictSet_other _ _ _ _ hox]
          linarith
      · rw [if_neg hwin]
        by_cases hfull : ((s.board.set i (tttSymbol p)).all fun cell => cell != " ") = true
        · rw [if_pos hfull]
          refine ⟨?_, hidx⟩
          simp only [tttSumScores, tttPlayers, List.map_cons, List.map_nil, List.sum_cons,
            List.sum_nil]
          linarith
        · rw [if_neg hfull]
          refine ⟨?_, ?_⟩
          · simp only [tttSumScores, tttPlayers, List.map_cons, List.map_nil, List.sum_cons,
              List.sum_nil]
            linarith
          · have : (s.currentIndex + 1) % tttPlayers.length < 2 := by
              simp [tttPlayers]
              omega
            exact this

theorem tttApplySeq_zero_sum (cfg : TTTConfig)
    (hzero : cfg.winReward + cfg.lossPenalty = 0) :
    ∀ (moves : List (String × String)) (s : TTTState),
      s.currentIndex < 2 → tttSumScores s = 0 →
      tttProperSeq cfg s moves = true →
      tttSumScores (tttApplySeq cfg s moves) = 0 := by
  intro moves
  induction moves with
  | nil => intro s _ hsum _; exact hsum
  | cons mv rest ih =>
    intro s hidx hsum hseq
    obtain ⟨p, c⟩ := mv
    simp only [tttProperSeq, Bool.and_eq_true] at hseq
    obtain ⟨hstep, hrest⟩ := hseq
    obtain ⟨hsum', hidx'⟩ := tttApply_proper_step_zero_sum cfg hzero s p c hidx hsum hstep
    exact ih _ hidx' hsum' hrest

/-- C4 amended: after `reset`, any sequence of apply calls in which no
call is penalised (each call is either a post-terminal no-op or a legal
in-turn move) keeps the sum of the per-player scores reported by
`final_scores` at exactly 0, provided the win reward and loss penalty
cancel (as the defaults 1.0 and -1.0 do); each penalised call instead
shifts the sum by the invalid penalty. -/
theorem ttt_zero_sum_for_proper_sequences (cfg : TTTConfig)
    (hzero : cfg.winReward + cfg.lossPenalty = 0)
    (moves : List (String × String))
    (hproper : tttProperSeq cfg tttReset moves = true) :
    tttSumScores (tttApplySeq cfg tttReset moves) = 0 :=
  tttApplySeq_zero_sum cfg hzero moves tttReset (by decide)
    (by simp [tttSumScores, tttPlayers, tttReset]) hproper

/-- Witness for the amended C4: a full game in which X wins the top row. -/
theorem ttt_zero_sum_for_proper_sequences_witness :
    defaultTTTConfig.winReward + defaultTTTConfig.lossPenalty = 0 ∧
    tttProperSeq defaultTTTConfig tttReset
      [("player_x", "1"), ("player_o", "4"), ("player_x", "2"),
        ("player_o", "5"), ("player_x", "3")] = true ∧
    tttSumScores (tttApplySeq defaultTTTConfig tttReset
      [("player_x", "1"), ("player_o", "4"), ("player_x", "2"),
        ("player_o", "5"), ("player_x", "3")]) = 0 :=
  ⟨by norm_num [defaultTTTConfig], by decide,
    ttt_zero_sum_for_proper_sequences defaultTTTConfig
      (by norm_num [defaultTTTConfig]) _ (by decide)⟩

end PersonaBench

namespace PersonaBench

theorem dealerDraw_ge_17 :
    ∀ (deck hand deck' hand' : List ℕ),
      dealerDraw deck hand = some (deck', hand') → 17 ≤ handValue hand' := by
  intro deck
  induction deck with
  | nil =>
    intro hand deck' hand' h
    unfold dealerDraw at h
    split at h
    · cases h
    · next hge =>
      simp only [Option.some_inj, Prod.mk.injEq] at h
      rw [← h.2]
      omega
  | cons c rest ih =>
    intro hand deck' hand' h
    unfold dealerDraw at h
    split at h
    · exact ih _ _ _ h
    · next hge =>
      simp only [Option.some_inj, Prod.mk.injEq] at h
      rw [← h.2]
      omega

theorem dealerDraw_extends :
    ∀ (deck hand deck' hand' : List ℕ),
      dealerDraw deck hand = some (deck', hand') → ∃ ext, hand' = hand ++ ext := by
  intro deck
  induction deck with
  | nil =>
    intro hand deck' hand' h
    unfold dealerDraw at h
    split at h
    · cases h
    · simp only [Option.some_inj, Prod.mk.injEq] at h
      exact ⟨[], by rw [← h.2, List.append_nil]⟩
  | cons c rest ih =>
    intro hand deck' hand' h
    unfold dealerDraw at h
    split at h
    · obtain ⟨ext, hext⟩ := ih _ _ _ h
      exact ⟨c :: ext, by rw [hext, List.append_assoc]; rfl⟩
    · simp only [Option.some_inj, Prod.mk.injEq] at h
      exact ⟨[], by rw [← h.2, List.append_nil]⟩

theorem resolveOne_preserves_other (cfg : BJConfig) (dt : ℕ)
    (acc : (String → BJPlayerState) × (String → ℚ)) (p q : String) (hq : q ≠ p) :
    (resolveOne cfg dt acc p).1 q = acc.1 q ∧ (resolveOne cfg dt acc p).2 q = acc.2 q := by
  unfold resolveOne
  dsimp only
  split
  · exact ⟨rfl, rfl⟩
  · split
    · exact ⟨dictSet_other _ _ _ _ hq, dictSet_other _ _ _ _ hq⟩
    · split
      · exact ⟨dictSet_other _ _ _ _ hq, dictSet_other _ _ _ _ hq⟩
      · exact ⟨dictSet_other _ _ _ _ hq, dictSet_other _ _ _ _ hq⟩

theorem resolveFold_untouched (cfg : BJConfig) (dt : ℕ) :
    ∀ (players : List String) (acc : (String → BJPlayerState) × (String → ℚ)) (q : String),
      q ∉ players →
      (players.foldl (resolveOne cfg dt) acc).1 q = acc.1 q ∧
      (players.foldl (resolveOne cfg dt) acc).2 q = acc.2 q := by
  intro players
  induction players with
  | nil => intro acc q _; exact ⟨rfl, rfl⟩
  | cons p rest ih =>
    intro acc q hq
    have hqp : q ≠ p := fun h => hq (h ▸ List.mem_cons_self p rest)
    have hqrest : q ∉ rest := fun h => hq (List.mem_cons_of_mem _ h)
    simp only [List.foldl_cons]
    obtain ⟨h1, h2⟩ := ih (resolveOne cfg dt acc p) q hqrest
    obtain ⟨h3, h4⟩ := resolveOne_preserves_other cfg dt acc p q hqp
    exact ⟨h1.trans h3, h2.trans h4⟩

theorem resolveFold_at (cfg : BJConfig) (dt : ℕ) :
    ∀ (players : List String) (acc : (String → BJPlayerState) × (String → ℚ)) (p : String),
      players.Nodup → p ∈ players →
      ¬((acc.1 p).outcome = some "bust" ∨ (acc.1 p).outcome = some "invalid") →
      (if 21 < dt ∨ dt < handValue (acc.1 p).hand then
        (players.foldl (resolveOne cfg dt) acc).1 p =
            { acc.1 p with outcome := some "win" } ∧
          (players.foldl (resolveOne cfg dt) acc).2 p = acc.2 p + cfg.winReward
      else if handValue (acc.1 p).hand = dt then
        (players.foldl (resolveOne cfg dt) acc).1 p =
            { acc.1 p with outcome := some "push" } ∧
          (players.foldl (resolveOne cfg dt) acc).2 p = acc.2 p + cfg.pushReward
      else
        (players.foldl (resolveOne cfg dt) acc).1 p =
            { acc.1 p with outcome := some "lose" } ∧
          (players.foldl (resolveOne cfg dt) acc).2 p = acc.2 p + cfg.losePenalty) := by
  intro players
  induction players with
  | nil => intro acc p _ hp _; cases hp
  | cons a rest ih =>
    intro acc p hnodup hp hlive
    obtain ⟨hna, hndrest⟩ := List.nodup_cons.mp hnodup
    simp only [List.foldl_cons]
    rcases List.mem_cons.mp hp with rfl | hmem
    · obtain ⟨hu1, hu2⟩ := resolveFold_untouched cfg dt rest (resolveOne cfg dt acc p) p hna
      rw [hu1, hu2]
      have hone : resolveOne cfg dt acc p =
          (if 21 < dt ∨ dt < handValue (acc.1 p).hand then
            (dictSet acc.1 p { acc.1 p with outcome := some "win" },
              dictSet acc.2 p (acc.2 p + cfg.winReward))
          else if handValue (acc.1 p).hand = dt then
            (dictSet acc.1 p { acc.1 p with outcome := some "push" },
              dictSet acc.2 p (acc.2 p + cfg.pushReward))
          else
            (dictSet acc.1 p { acc.1 p with outcome := some "lose" },
              dictSet acc.2 p (acc.2 p + cfg.losePenalty))) := by
        unfold resolveOne
        rw [if_neg hlive]
      rw [hone]
      by_cases h1 : 21 < dt ∨ dt < handValue (acc.1 p).hand
      · rw [if_pos h1, if_pos h1]
        exact ⟨dictSet_same _ _ _, dictSet_same _ _ _⟩
      · rw [if_neg h1, if_neg h1]
        by_cases h2 : handValue (acc.1 p).hand = dt
        · rw [if_pos h2, if_pos h2]
          exact ⟨dictSet_same _ _ _, dictSet_same _ _ _⟩
        · rw [if_neg h2, if_neg h2]
          exact ⟨dictSet_same _ _ _, dictSet_same _ _ _⟩
    · have hpa : p ≠ a := fun h => hna (h ▸ hmem)
      obtain ⟨hp1, hp2⟩ := resolveOne_preserves_other cfg dt acc a p hpa
      have hlive' : ¬(((resolveOne cfg dt acc a).1 p).outcome = some "bust" ∨
          ((resolveOne cfg dt acc a).1 p).outcome = some "invalid") := by
        rw [hp1]; exact hlive
      have := ih (resolveOne cfg dt acc a) p hndrest hmem hlive'
      rw [hp1, hp2] at this
      exact this

/-- C2: once every player is done, resolution draws cards for the dealer
until its total reaches at least 17, then every player whose outcome is
not bust or invalid is compared against the dealer total: dealer bust or a
strictly greater player total wins the win reward, an equal total pushes
the push reward, anything else loses the lose penalty; afterwards the
match is terminal. -/
theorem blackjack_resolution (cfg : BJConfig) (s s' : BJState)
    (hterm : s.terminal = false)
    (hall : ∀ p ∈ s.players, (s.pstates p).done = true)
    (hnres : s.dealerResolved = false)
    (hnodup : s.players.Nodup)
    (hres : maybeResolveMatch cfg s = some s') :
    17 ≤ handValue s'.dealer ∧
    (∃ ext, s'.dealer = s.dealer ++ ext) ∧
    s'.terminal = true ∧
    ∀ p ∈ s.players,
      ¬((s.pstates p).outcome = some "bust" ∨ (s.pstates p).outcome = some "invalid") →
      (if 21 < handValue s'.dealer ∨ handValue s'.dealer < handValue (s.pstates p).hand then
        (s'.pstates p).outcome = some "win" ∧ s'.scores p = s.scores p + cfg.winReward
      else if handValue (s.pstates p).hand = handValue s'.dealer then
        (s'.pstates p).outcome = some "push" ∧ s'.scores p = s.scores p + cfg.pushReward
      else
        (s'.pstates p).outcome = some "lose" ∧ s'.scores p = s.scores p + cfg.losePenalty) := by
  have hany : s.players.any (fun p => !(s.pstates p).done) = false := by
    simp only [List.any_eq_false, Bool.not_eq_true']
    intro x hx
    simp [hall x hx]
  unfold maybeResolveMatch at hres
  rw [if_neg (by simp [hterm]), if_neg (by simp [hany]), if_neg (by simp [hnres])] at hres
  cases hdraw : dealerDraw s.deck s.dealer with
  | none => rw [hdraw] at hres; cases hres
  | some pair =>
    obtain ⟨deck', dealer'⟩ := pair
    rw [hdraw] at hres
    dsimp only at hres
    have hs' : s' = { s with
        deck := deck', dealer := dealer',
        pstates := (resolvePlayers cfg (handValue dealer') s.players s.pstates s.scores).1,
        scores := (resolvePlayers cfg (handValue dealer') s.players s.pstates s.scores).2,
        dealerResolved := true, terminal := true } := (Option.some_inj.mp hres).symm
    subst hs'
    refine ⟨dealerDraw_ge_17 _ _ _ _ hdraw, dealerDraw_extends _ _ _ _ hdraw, rfl, ?_⟩
    intro p hp hlive
    have hfold := resolveFold_at cfg (handValue dealer') s.players (s.pstates, s.scores) p
      hnodup hp hlive
    dsimp only at hfold ⊢
    simp only [resolvePlayers]
    by_cases h1 : 21 < handValue dealer' ∨ handValue dealer' < handValue (s.pstates p).hand
    · rw [if_pos h1] at hfold ⊢
      exact ⟨by rw [hfold.1], hfold.2⟩
    · rw [if_neg h1] at hfold ⊢
      by_cases h2 : handValue (s.pstates p).hand = handValue dealer'
      · rw [if_pos h2] at hfold ⊢
        exact ⟨by rw [hfold.1], hfold.2⟩
      · rw [if_neg h2] at hfold ⊢
        exact ⟨by rw [hfold.1], hfold.2⟩

end PersonaBench

namespace PersonaBench

/-- A blackjack state in which both players have stood, used by the C2
witness: alice stood on 19, bob on 15; the dealer holds 16 and will draw
one card (a 2) to reach 18, so alice wins and bob loses. -/
def bjDoneDemo : BJState :=
  { players := ["alice", "bob"],
    scores := fun _ => 0,
    pstates := fun p =>
      if p = "alice" then { hand := [10, 9], done := true, stood := true }
      else { hand := [10, 5], done := true, stood := true },
    deck := [2, 3, 4], dealer := [10, 6], currentIndex := 0,
    terminal := false, dealerResolved := false }

/-- Witness for C2 at a concrete two-player table. -/
theorem blackjack_resolution_witness :
    (bjDoneDemo.terminal = false ∧
      (∀ p ∈ bjDoneDemo.players, (bjDoneDemo.pstates p).done = true) ∧
      bjDoneDemo.dealerResolved = false ∧ bjDoneDemo.players.Nodup) ∧
    ∃ s', maybeResolveMatch defaultBJConfig bjDoneDemo = some s' ∧
      (17 ≤ handValue s'.dealer ∧
        (∃ ext, s'.dealer = bjDoneDemo.dealer ++ ext) ∧
        s'.terminal = true ∧
        ∀ p ∈ bjDoneDemo.players,
          ¬((bjDoneDemo.pstates p).outcome = some "bust" ∨
            (bjDoneDemo.pstates p).outcome = some "invalid") →
          (if 21 < handValue s'.dealer ∨
              handValue s'.dealer < handValue (bjDoneDemo.pstates p).hand then
            (s'.pstates p).outcome = some "win" ∧
              s'.scores p = bjDoneDemo.scores p + defaultBJConfig.winReward
          else if handValue (bjDoneDemo.pstates p).hand = handValue s'.dealer then
            (s'.pstates p).outcome = some "push" ∧
              s'.scores p = bjDoneDemo.scores p + defaultBJConfig.pushReward
          else
            (s'.pstates p).outcome = some "lose" ∧
              s'.scores p = bjDoneDemo.scores p + defaultBJConfig.losePenalty)) := by
  refine ⟨⟨rfl, by decide, rfl, by decide⟩, ?_⟩
  have hsome : (maybeResolveMatch defaultBJConfig bjDoneDemo).isSome = true := by decide
  obtain ⟨s', hs'⟩ := Option.isSome_iff_exists.mp hsome
  exact ⟨s', hs',
    blackjack_resolution defaultBJConfig bjDoneDemo s' rfl (by decide) rfl (by decide) hs'⟩

/-- The blackjack game instance used by the C10 witness. -/
def demoBJGame : Game BJState BJObs :=
  blackjackGame (fun _ l => l) defaultBJConfig ["p1", "p2"] 0

/-- Witness for C10 at `max_turns = 0`, which the clamp lifts to one turn. -/
theorem run_executes_first_turn_witness :
    1 ≤ clampTurns 0 ∧
    ∃ s0 res, demoBJGame.reset = some s0 ∧ demoBJGame.isTerminal s0 = false ∧
      runMaster demoBJGame (fun _ _ _ => "stand") 0 = some res ∧
      1 ≤ res.turns.length := by
  have hrsome : (demoBJGame.reset).isSome = true := by decide
  obtain ⟨s0, hs0⟩ := Option.isSome_iff_exists.mp hrsome
  have hmsome : (runMaster demoBJGame (fun _ _ _ => "stand") 0).isSome = true := by decide
  obtain ⟨res, hres⟩ := Option.isSome_iff_exists.mp hmsome
  have hnt' : demoBJGame.reset.map (fun s => demoBJGame.isTerminal s) = some false := by
    decide
  rw [hs0] at hnt'
  have hnt : demoBJGame.isTerminal s0 = false := by simpa using hnt'
  exact ⟨by decide, s0, res, hs0, hnt,
    hres, (run_executes_first_turn demoBJGame (fun _ _ _ => "stand") 0 res s0 hs0 hnt hres).2⟩

end PersonaBench
